import Mathlib

/-!
Shallow embedding of `whisper-stream_to_markers.py` (ReaScript bridging the
whisper-stream transcription process to Reaper timeline markers), together
with proofs about its line sanitizer, utterance synchronizer, polling loop
and process lifecycle.

Python machine details modelled explicitly:
  * `re.sub(pat, '', s)` is a left-to-right scan deleting each leftmost
    match and resuming after it;
  * `str.strip()` / `str.upper()` are modelled character-wise (the strings
    compared in the script are ASCII);
  * timeline positions (Python floats used only as opaque data, never in
    arithmetic) are modelled as `Rat`.
-/

namespace WhisperMarkers

/-! ## Line Sanitizer: `strip_ansi_codes` (source lines 54-56)

The regex is `\r|\x1b\[([0-9]{1,2}(;[0-9]{1,2})?)?[mK]`, substituted by the
empty string.  We model the regex engine's match attempt at one position,
with the engine's greedy/backtracking order made explicit. -/

/-- `[mK]`: consume a final `m` or `K`. -/
def close : List Char → Option (List Char)
  | c :: rest => if c = 'm' ∨ c = 'K' then some rest else none
  | [] => none

/-- `(;[0-9]{1,2})` followed by `[mK]`, with the greedy 2-then-1 digit order. -/
def semiThenClose : List Char → Option (List Char)
  | ';' :: d1 :: rest1 =>
    if d1.isDigit then
      match rest1 with
      | d2 :: rest2 =>
        if d2.isDigit then (close rest2).orElse (fun _ => close rest1)
        else close rest1
      | [] => close rest1
    else none
  | _ => none

/-- `([0-9]{1,2}(;[0-9]{1,2})?)?[mK]`: what may follow `ESC [`. -/
def afterOpen : List Char → Option (List Char)
  | [] => none
  | d1 :: rest1 =>
    if d1.isDigit then
      (match rest1 with
       | d2 :: rest2 =>
         if d2.isDigit then
           (((semiThenClose rest2).orElse (fun _ => close rest2)).orElse
             (fun _ => (semiThenClose rest1).orElse (fun _ => close rest1)))
         else (semiThenClose rest1).orElse (fun _ => close rest1)
       | [] => close rest1)
        |>.orElse (fun _ => close (d1 :: rest1))
    else close (d1 :: rest1)

/-- Try to match the whole regex at the current position; on success return
the remainder after the match. -/
def subMatch : List Char → Option (List Char)
  | [] => none
  | c :: rest =>
    if c = '\x0d' then some rest
    else if c = '\x1b' then
      match rest with
      | c2 :: rest2 => if c2 = '[' then afterOpen rest2 else none
      | [] => none
    else none

/-- The `re.sub` deletion scan.  Every successful match consumes at least one
character, so `fuel := length` steps always reach the end of the string. -/
def stripGo : Nat → List Char → List Char
  | 0, cs => cs
  | _ + 1, [] => []
  | fuel + 1, c :: rest =>
    match subMatch (c :: rest) with
    | some rest2 => stripGo fuel rest2
    | none => c :: stripGo fuel rest

/-- `strip_ansi_codes(s)`: removes ANSI escape codes and carriage returns. -/
def strip_ansi_codes (s : String) : String :=
  ⟨stripGo s.data.length s.data⟩

/-! ## Python string helpers used by the script -/

/-- The whitespace class of Python `str.strip()` (ASCII part). -/
def pySpace (c : Char) : Bool :=
  c = ' ' || c = '\t' || c = '\n' || c = '\x0d' || c = '\x0b' || c = '\x0c'

/-- `str.strip()` on the underlying character list. -/
def pyStrip (cs : List Char) : List Char :=
  ((cs.dropWhile pySpace).reverse.dropWhile pySpace).reverse

/-- `str.strip()`. -/
def pyStripStr (s : String) : String := ⟨pyStrip s.data⟩

/-- `str.upper()`, character-wise (the script only compares ASCII strings). -/
def pyUpper (s : String) : String := ⟨s.data.map Char.toUpper⟩

/-- `needle in hay` on character lists (Python substring containment). -/
def containsSub (needle : List Char) : List Char → Bool
  | [] => needle.isEmpty
  | c :: rest => needle.isPrefixOf (c :: rest) || containsSub needle rest

/-- Python `needle in hay` for strings. -/
def pyIn (needle hay : String) : Bool := containsSub needle.data hay.data

/-! ## Data model

Timeline positions (`RPR_GetPlayPosition()` results, Python floats used as
opaque timestamps) are modelled as `Rat`.  The synchronizer's session state
is the group of module globals `g_speech_started`, `g_iter_count`,
`g_utterance_start_pos`, `g_commit_interval` (source lines 42-45); the
Python ints involved are always non-negative, so `Nat` models them. -/

/-- One timeline marker request: `RPR_AddProjectMarker2` text and position. -/
structure CommitEvent where
  text : String
  anchorPosition : Rat
  deriving DecidableEq

/-- The synchronizer's per-session state. -/
structure SyncState where
  speechStarted : Bool
  iterCount : Nat
  anchorPos : Rat
  commitInterval : Nat
  deriving DecidableEq

/-- `add_marker(text, position)` (source lines 66-78): strips the text and
adds a marker unless the stripped text is empty. -/
def add_marker (text : String) (position : Rat) : Option CommitEvent :=
  let stripped := pyStripStr text
  if stripped = "" then none else some ⟨stripped, position⟩

/-- The no-speech sentinel list of source line 103. -/
def SENTINELS : List String :=
  ["[BLANK AUDIO]", "[ SILENCE ]", "[BLANK_AUDIO]", "[SILENCE]"]

/-- The speech-onset sentinel of source line 98. -/
def START_SENTINEL : String := "[Start speaking]"

/-- The synchronizer's `feed`: the per-line logic of `poll_whisper_output`
on an already-cleaned line (source lines 96-111).  Returns the new state,
the marker committed (if any), and whether control reaches the re-arm check
of source lines 117-119 (the sentinel branch `return`s early at line 104).
`buffer_end = g_iter_count is 0` at line 107 is identity on a CPython
small-int cache member, hence equality with 0. -/
def feed (st : SyncState) (cleaned_line : String) (currentPos : Rat) :
    SyncState × Option CommitEvent × Bool :=
  if st.speechStarted = false then
    if pyIn START_SENTINEL cleaned_line then
      ({ st with speechStarted := true, anchorPos := currentPos }, none, true)
    else (st, none, true)
  else if cleaned_line = "" then (st, none, true)
  else if pyUpper cleaned_line ∈ SENTINELS then (st, none, false)
  else
    let i := (st.iterCount + 1) % st.commitInterval
    if i = 0 then
      ({ st with iterCount := i, anchorPos := currentPos },
       add_marker cleaned_line st.anchorPos, true)
    else ({ st with iterCount := i }, none, true)

/-- Feed a list of (cleaned line, play position) pairs, collecting the
markers committed along the way. -/
def feedMany (st : SyncState) (inputs : List (String × Rat)) :
    SyncState × List CommitEvent :=
  match inputs with
  | [] => (st, [])
  | (l, p) :: rest =>
    let r := feed st l p
    let rr := feedMany r.1 rest
    (rr.1, r.2.1.toList ++ rr.2)

/-! ## Session start: the commit interval (source lines 30-31 and 134-142) -/

def LENGTH_MS : Int := 10000

def STEP_MS : Int := 1000

/-- The interval computation of `start_process` (source lines 139-142);
Python `//` on ints is floor division. -/
def compute_commit_interval (length_ms step_ms : Int) : Int :=
  if step_ms > 0 then max 1 (Int.fdiv length_ms step_ms - 1) else 9

/-- The session state right after `start_process` reset the globals and set
`g_commit_interval` (source lines 134-142).  The interval is a non-negative
Python int (`max(1, _)` or `9`), so `toNat` is lossless. -/
def start_session : SyncState :=
  { speechStarted := false, iterCount := 0, anchorPos := 0,
    commitInterval := (compute_commit_interval LENGTH_MS STEP_MS).toNat }

/-! ## The polling tick (source lines 81-119) -/

/-- One `poll_whisper_output` tick in which `readline` returned `line`
(`none` models both an empty read and the `IOError` of non-blocking mode).
`alive` models `g_process and g_process.poll() is None`, assumed stable
within the tick.  The final `Bool` records whether `RPR_defer` re-arms the
loop (source lines 117-119). -/
def poll_step (alive : Bool) (st : SyncState) (line : Option String)
    (pos : Rat) : SyncState × Option CommitEvent × Bool :=
  if alive = false then (st, none, false)
  else
    match line with
    | none => (st, none, true)
    | some raw =>
      if raw = "" then (st, none, true)
      else
        let cleaned := pyStripStr (strip_ansi_codes raw)
        feed st cleaned pos

/-! ## Process lifecycle: `stop_process` (source lines 177-187) -/

/-- The subprocess handle: only liveness (`poll() is None`) matters. -/
structure Handle where
  alive : Bool
  deriving DecidableEq

/-- The module globals touched by `stop_process`. -/
structure Globals where
  g_process : Option Handle
  sync : SyncState
  g_is_recording : Bool
  deriving DecidableEq

/-- `stop_process()` (source lines 177-187).  Returns the new globals,
whether a termination signal was sent, and the markers added (none: the
body never calls `add_marker`).  The function declares `global g_process`
only; the assignments to `g_speech_started`, `g_iter_count` and
`g_utterance_start_pos` at lines 185-187 therefore bind fresh function
locals, and the module-level synchronizer state is left unchanged. -/
def stop_process (g : Globals) : Globals × Bool × List CommitEvent :=
  match g.g_process with
  | some h =>
    if h.alive then ({ g with g_process := none }, true, [])
    else (g, false, [])
  | none => (g, false, [])

/-! ## Helper lemmas -/

lemma subMatch_no_esc (c : Char) (rest : List Char) (h1 : c ≠ '\x1b') :
    subMatch (c :: rest) = if c = '\x0d' then some rest else none := by
  simp [subMatch, h1]

lemma stripGo_no_esc (fuel : Nat) :
    ∀ cs : List Char, cs.length ≤ fuel → (∀ c ∈ cs, c ≠ '\x1b') →
      stripGo fuel cs = cs.filter (fun c => c != '\x0d') := by
  induction fuel with
  | zero =>
    intro cs hlen _
    rw [List.length_eq_zero.mp (Nat.le_zero.mp hlen)]
    rfl
  | succ fuel ih =>
    intro cs hlen hesc
    match cs with
    | [] => rfl
    | c :: rest =>
      have hc : c ≠ '\x1b' := hesc c (List.mem_cons_self _ _)
      have hrest : ∀ c ∈ rest, c ≠ '\x1b' := fun d hd => hesc d (List.mem_cons_of_mem _ hd)
      have hlen2 : rest.length ≤ fuel := Nat.le_of_succ_le_succ (by simpa using hlen)
      by_cases hcr : c = '\x0d'
      · subst hcr
        have hm : subMatch ('\x0d' :: rest) = some rest := by
          rw [subMatch_no_esc _ rest hc]
          simp
        simp only [stripGo, hm]
        rw [ih rest hlen2 hrest, List.filter_cons]
        simp
      · have hm : subMatch (c :: rest) = none := by
          rw [subMatch_no_esc c rest hc, if_neg hcr]
        have hb : (c != '\x0d') = true := by simpa using hcr
        simp only [stripGo, hm]
        rw [ih rest hlen2 hrest, List.filter_cons, if_pos hb]

lemma stripGo_clean (fuel : Nat) :
    ∀ cs : List Char, (∀ c ∈ cs, c ≠ '\x1b' ∧ c ≠ '\x0d') → stripGo fuel cs = cs := by
  induction fuel with
  | zero => intro cs _; rfl
  | succ fuel ih =>
    intro cs hcs
    match cs with
    | [] => rfl
    | c :: rest =>
      have hc := hcs c (List.mem_cons_self _ _)
      have hm : subMatch (c :: rest) = none := by
        rw [subMatch_no_esc c rest hc.1, if_neg hc.2]
      have hrest : ∀ c ∈ rest, c ≠ '\x1b' ∧ c ≠ '\x0d' :=
        fun d hd => hcs d (List.mem_cons_of_mem _ hd)
      simp [stripGo, hm, ih rest hrest]

lemma feed_counted (st : SyncState) (l : String) (p : Rat)
    (hs : st.speechStarted = true) (hne : l ≠ "") (hsent : pyUpper l ∉ SENTINELS) :
    feed st l p =
      if (st.iterCount + 1) % st.commitInterval = 0 then
        ({ st with iterCount := (st.iterCount + 1) % st.commitInterval, anchorPos := p },
         add_marker l st.anchorPos, true)
      else ({ st with iterCount := (st.iterCount + 1) % st.commitInterval }, none, true) := by
  by_cases hw : (st.iterCount + 1) % st.commitInterval = 0
  · simp [feed, hs, hne, hsent, hw]
  · simp [feed, hs, hne, hsent, hw]

lemma add_marker_of_stripped (l : String) (a : Rat)
    (hstrip : pyStripStr l = l) (hne : l ≠ "") :
    add_marker l a = some ⟨l, a⟩ := by
  simp [add_marker, hstrip, hne]

lemma feed_commitInterval_eq (st : SyncState) (l : String) (p : Rat) :
    (feed st l p).1.commitInterval = st.commitInterval := by
  simp only [feed]
  split_ifs <;> rfl

lemma feedMany_cadence (lines : List (String × Rat)) :
    ∀ st : SyncState, st.speechStarted = true → 0 < st.commitInterval →
      st.iterCount < st.commitInterval →
      (∀ lp ∈ lines, pyStripStr lp.1 = lp.1 ∧ lp.1 ≠ "" ∧ pyUpper lp.1 ∉ SENTINELS) →
      (feedMany st lines).2.length = (st.iterCount + lines.length) / st.commitInterval ∧
      (feedMany st lines).1.iterCount = (st.iterCount + lines.length) % st.commitInterval ∧
      (feedMany st lines).1.commitInterval = st.commitInterval := by
  induction lines with
  | nil =>
    intro st _ _ hit _
    exact ⟨(Nat.div_eq_of_lt hit).symm, (Nat.mod_eq_of_lt hit).symm, rfl⟩
  | cons hd tl ih =>
    intro st hs hI hit hl
    obtain ⟨l, p⟩ := hd
    obtain ⟨h1, h2, h3⟩ := hl (l, p) (List.mem_cons_self _ _)
    have hltl : ∀ lp ∈ tl, pyStripStr lp.1 = lp.1 ∧ lp.1 ≠ "" ∧ pyUpper lp.1 ∉ SENTINELS :=
      fun lp hlp => hl lp (List.mem_cons_of_mem _ hlp)
    have hstep := feed_counted st l p hs h2 h3
    have hsucc : st.iterCount + 1 ≤ st.commitInterval := hit
    by_cases hw : (st.iterCount + 1) % st.commitInterval = 0
    · -- the increment wraps: `st.iterCount + 1 = commitInterval`, one marker committed
      have hdvd : st.commitInterval ∣ st.iterCount + 1 := Nat.dvd_of_mod_eq_zero hw
      have heq : st.iterCount + 1 = st.commitInterval :=
        Nat.le_antisymm hsucc (Nat.le_of_dvd (Nat.succ_pos _) hdvd)
      have hfeed : feed st l p =
          ({ st with iterCount := 0, anchorPos := p }, add_marker l st.anchorPos, true) := by
        rw [hstep, if_pos hw, hw]
      have hmarker := add_marker_of_stripped l st.anchorPos h1 h2
      have hih := ih { st with iterCount := 0, anchorPos := p } hs hI hI hltl
      have hlen : (feedMany { st with iterCount := 0, anchorPos := p } tl).2.length
          = tl.length / st.commitInterval := by simpa using hih.1
      have hiter : (feedMany { st with iterCount := 0, anchorPos := p } tl).1.iterCount
          = tl.length % st.commitInterval := by simpa using hih.2.1
      have hintv : (feedMany { st with iterCount := 0, anchorPos := p } tl).1.commitInterval
          = st.commitInterval := by simpa using hih.2.2
      have harith : st.iterCount + (tl.length + 1) = tl.length + st.commitInterval := by omega
      refine ⟨?_, ?_, ?_⟩
      · simp only [feedMany, hfeed, hmarker, Option.toList_some, List.singleton_append,
          List.length_cons, hlen]
        rw [harith, Nat.add_div_right _ hI]
      · simp only [feedMany, hfeed, List.length_cons, hiter]
        rw [harith, Nat.add_mod_right]
      · simp only [feedMany, hfeed, hintv]
    · -- no wrap: `iterCount` advances to `iterCount + 1 < commitInterval`, nothing committed
      have hlt : st.iterCount + 1 < st.commitInterval := by
        rcases Nat.lt_or_ge (st.iterCount + 1) st.commitInterval with h | h
        · exact h
        · exact absurd (by rw [Nat.le_antisymm hsucc h, Nat.mod_self]) hw
      have hmod : (st.iterCount + 1) % st.commitInterval = st.iterCount + 1 :=
        Nat.mod_eq_of_lt hlt
      have hfeed : feed st l p = ({ st with iterCount := st.iterCount + 1 }, none, true) := by
        rw [hstep, if_neg hw, hmod]
      have hih := ih { st with iterCount := st.iterCount + 1 } hs hI hlt hltl
      have hlen : (feedMany { st with iterCount := st.iterCount + 1 } tl).2.length
          = (st.iterCount + 1 + tl.length) / st.commitInterval := by simpa using hih.1
      have hiter : (feedMany { st with iterCount := st.iterCount + 1 } tl).1.iterCount
          = (st.iterCount + 1 + tl.length) % st.commitInterval := by simpa using hih.2.1
      have hintv : (feedMany { st with iterCount := st.iterCount + 1 } tl).1.commitInterval
          = st.commitInterval := by simpa using hih.2.2
      have harith : st.iterCount + 1 + tl.length = st.iterCount + (tl.length + 1) := by omega
      refine ⟨?_, ?_, ?_⟩
      · simp only [feedMany, hfeed, Option.toList_none, List.nil_append, List.length_cons, hlen]
        rw [harith]
      · simp only [feedMany, hfeed, List.length_cons, hiter]
        rw [harith]
      · simp only [feedMany, hfeed, hintv]

/-! ## Claim theorems -/

/-- C1: for every sequence of non-discarded, non-empty cleaned lines fed while
the synchronizer is Accumulating, exactly one commit is produced for every
`commitInterval` such lines (`⌊(iterCount + n) / commitInterval⌋` from a
counter in range), the counter is updated as
`iterationCount = (iterationCount + 1) % commitInterval` and stays in
`[0, commitInterval)`, and a single feed commits exactly when the increment
wraps the counter to zero. -/
theorem feed_commit_cadence (st : SyncState) (lines : List (String × Rat))
    (hs : st.speechStarted = true) (hI : 0 < st.commitInterval)
    (hit : st.iterCount < st.commitInterval)
    (hl : ∀ lp ∈ lines, pyStripStr lp.1 = lp.1 ∧ lp.1 ≠ "" ∧ pyUpper lp.1 ∉ SENTINELS) :
    (feedMany st lines).2.length = (st.iterCount + lines.length) / st.commitInterval ∧
    (feedMany st lines).1.iterCount = (st.iterCount + lines.length) % st.commitInterval ∧
    (feedMany st lines).1.iterCount < st.commitInterval ∧
    (∀ l p, pyStripStr l = l → l ≠ "" → pyUpper l ∉ SENTINELS →
      ((feed st l p).2.1.isSome ↔ (st.iterCount + 1) % st.commitInterval = 0)) := by
  obtain ⟨hlen, hiter, _⟩ := feedMany_cadence lines st hs hI hit hl
  refine ⟨hlen, hiter, ?_, ?_⟩
  · rw [hiter]
    exact Nat.mod_lt _ hI
  · intro l p h1 h2 h3
    rw [feed_counted st l p hs h2 h3]
    by_cases hw : (st.iterCount + 1) % st.commitInterval = 0
    · simp [hw, add_marker_of_stripped l st.anchorPos h1 h2]
    · simp [hw]

theorem feed_commit_cadence_witness :
    (feedMany ⟨true, 0, 0, 3⟩ [("a", 1), ("b", 2), ("c", 3), ("d", 4)]).2.length = (0 + 4) / 3 ∧
    (feedMany ⟨true, 0, 0, 3⟩ [("a", 1), ("b", 2), ("c", 3), ("d", 4)]).1.iterCount = (0 + 4) % 3 := by
  have h := feed_commit_cadence ⟨true, 0, 0, 3⟩ [("a", 1), ("b", 2), ("c", 3), ("d", 4)]
    rfl (by decide) (by decide) (by decide)
  exact ⟨h.1, h.2.1⟩

/-- C2: every commit carries the anchor position recorded at the start of the
current buffer window (the pre-commit `anchorPos` field), not the play
position at commit time, and immediately after the commit the anchor is set
to the committing tick's play position. -/
theorem feed_commit_anchor (st : SyncState) (l : String) (p : Rat)
    (hs : st.speechStarted = true) (hstrip : pyStripStr l = l) (hne : l ≠ "")
    (hsent : pyUpper l ∉ SENTINELS)
    (hwrap : (st.iterCount + 1) % st.commitInterval = 0) :
    (feed st l p).2.1 = some ⟨l, st.anchorPos⟩ ∧ (feed st l p).1.anchorPos = p := by
  rw [feed_counted st l p hs hne hsent, if_pos hwrap]
  exact ⟨add_marker_of_stripped l st.anchorPos hstrip hne, rfl⟩

theorem feed_commit_anchor_witness :
    (feed ⟨true, 8, 5, 9⟩ "hello" 7).2.1 = some ⟨"hello", 5⟩ ∧
    (feed ⟨true, 8, 5, 9⟩ "hello" 7).1.anchorPos = 7 :=
  feed_commit_anchor ⟨true, 8, 5, 9⟩ "hello" 7 rfl (by decide) (by decide) (by decide) (by decide)

/-- C3 (code bug): a no-speech sentinel line makes `poll_whisper_output`
return from inside the `try` block (source line 104) before the re-arming
`RPR_defer` of lines 117-119, so the pumping loop is NOT re-armed for a
discarded sentinel line even though the process is alive, while an ordinary
line does re-arm it. -/
theorem poll_sentinel_drops_rearm :
    (poll_step true ⟨true, 2, 5, 9⟩ (some "[BLANK_AUDIO]") 7 = (⟨true, 2, 5, 9⟩, none, false)) ∧
    (poll_step true ⟨true, 2, 5, 9⟩ (some "hello") 7 = (⟨true, 3, 5, 9⟩, none, true)) := by
  decide

/-- C4 (code bug): `stop_process` declares only `global g_process`, so the
"Reset globals" assignments of source lines 185-187 bind function locals and
the module-level session state survives the stop: after stopping a live
process mid-session, `g_speech_started` is still `true`, `g_iter_count`
still `3` and `g_utterance_start_pos` still `5`, not the defaults. -/
theorem stop_process_keeps_sync_state :
    (stop_process ⟨some ⟨true⟩, ⟨true, 3, 5, 9⟩, true⟩).1.sync = ⟨true, 3, 5, 9⟩ ∧
    (stop_process ⟨some ⟨true⟩, ⟨true, 3, 5, 9⟩, true⟩).1.sync.speechStarted ≠ false := by
  decide

/-- C5 counterexample: `strip_ansi_codes` is not idempotent.  Deleting the
escape sequence inside `"\x1b\x1b[m[m"` splices its neighbours into a new
escape sequence: one pass gives `"\x1b[m"`, a second pass gives `""`. -/
theorem strip_ansi_not_idempotent :
    strip_ansi_codes (strip_ansi_codes "\x1b\x1b[m[m") ≠ strip_ansi_codes "\x1b\x1b[m[m" := by
  decide

/-- C5 amended: `strip_ansi_codes` is idempotent on every input that contains
no ESC (`0x1b`) character (a single pass then removes exactly the carriage
returns, and removal cannot create a new match). -/
theorem strip_ansi_idem_no_esc (s : String) (h : ∀ c ∈ s.data, c ≠ '\x1b') :
    strip_ansi_codes (strip_ansi_codes s) = strip_ansi_codes s := by
  have h1 : stripGo s.data.length s.data = s.data.filter (fun c => c != '\x0d') :=
    stripGo_no_esc s.data.length s.data le_rfl h
  have h2 : strip_ansi_codes s = ⟨s.data.filter (fun c => c != '\x0d')⟩ :=
    congrArg String.mk h1
  rw [h2]
  show String.mk (stripGo _ _) = _
  refine congrArg String.mk (stripGo_clean _ _ ?_)
  intro c hc
  obtain ⟨hmem, hbe⟩ := List.mem_filter.mp hc
  exact ⟨h c hmem, by simpa using hbe⟩

theorem strip_ansi_idem_no_esc_witness :
    strip_ansi_codes (strip_ansi_codes "a\x0db") = strip_ansi_codes "a\x0db" :=
  strip_ansi_idem_no_esc "a\x0db" (by decide)

/-- C6: feeding a line whose upper-cased content is one of the recognized
no-speech sentinels while Accumulating leaves the whole session state
(iteration counter and anchor included) unchanged and produces no commit. -/
theorem feed_sentinel_frame (st : SyncState) (l : String) (p : Rat)
    (hs : st.speechStarted = true) (hne : l ≠ "") (hsent : pyUpper l ∈ SENTINELS) :
    feed st l p = (st, none, false) := by
  simp [feed, hs, hne, hsent]

theorem feed_sentinel_frame_witness :
    feed ⟨true, 2, 5, 9⟩ "[blank audio]" 7 = (⟨true, 2, 5, 9⟩, none, false) :=
  feed_sentinel_frame ⟨true, 2, 5, 9⟩ "[blank audio]" 7 rfl (by decide) (by decide)

/-- C7: the commit interval is `max(1, length_ms // step_ms - 1)` for
positive `step_ms` (so `length_ms = 10000, step_ms = 1000` gives `9`), falls
back to the fixed default `9` when `step_ms = 0`, is the value installed at
session start, and is never changed by `feed`. -/
theorem commit_interval_formula :
    (∀ L S : Int, 0 < S → compute_commit_interval L S = max 1 (Int.fdiv L S - 1)) ∧
    (∀ L : Int, compute_commit_interval L 0 = 9) ∧
    compute_commit_interval 10000 1000 = 9 ∧
    start_session.commitInterval = 9 ∧
    (∀ (st : SyncState) (l : String) (p : Rat),
      (feed st l p).1.commitInterval = st.commitInterval) := by
  refine ⟨?_, ?_, by decide, by decide, fun st l p => feed_commitInterval_eq st l p⟩
  · intro L S hS
    simp [compute_commit_interval, hS]
  · intro L
    simp [compute_commit_interval]

theorem commit_interval_formula_witness :
    compute_commit_interval 10000 1000 = max 1 (Int.fdiv 10000 1000 - 1) :=
  commit_interval_formula.1 10000 1000 (by decide)

/-- C8: in the Idle (pre-speech) state, any cleaned line not containing the
case-sensitive sentinel `"[Start speaking]"` is ignored: no commit, state
unchanged (and the loop re-arms). -/
theorem feed_idle_ignores (st : SyncState) (l : String) (p : Rat)
    (hs : st.speechStarted = false) (hns : pyIn START_SENTINEL l = false) :
    feed st l p = (st, none, true) := by
  simp [feed, hs, hns]

theorem feed_idle_ignores_witness :
    feed ⟨false, 0, 0, 9⟩ "whisper init ok" 3 = (⟨false, 0, 0, 9⟩, none, true) :=
  feed_idle_ignores ⟨false, 0, 0, 9⟩ "whisper init ok" 3 rfl (by decide)

/-- C9: `stop_process` sends a termination signal only when a live process
exists, is a no-op (and raises no error) on an absent or already-exited
handle, is idempotent, and never flushes a trailing commit. -/
theorem stop_process_safe :
    (∀ g : Globals, (stop_process g).2.1 = true → ∃ h, g.g_process = some h ∧ h.alive = true) ∧
    (∀ g : Globals, g.g_process = none → stop_process g = (g, false, [])) ∧
    (∀ (g : Globals) (h : Handle), g.g_process = some h → h.alive = false →
      stop_process g = (g, false, [])) ∧
    (∀ g : Globals, stop_process (stop_process g).1 = ((stop_process g).1, false, [])) ∧
    (∀ g : Globals, (stop_process g).2.2 = []) := by
  have hcase : ∀ g : Globals, stop_process g = ({ g with g_process := none }, true, []) ∨
      stop_process g = (g, false, []) := by
    intro g
    unfold stop_process
    match hp : g.g_process with
    | none => exact Or.inr rfl
    | some h =>
      by_cases ha : h.alive
      · exact Or.inl (by simp [ha])
      · exact Or.inr (by simp [ha])
  refine ⟨?_, ?_, ?_, ?_, ?_⟩
  · intro g hsig
    rcases hp : g.g_process with _ | h
    · simp [stop_process, hp] at hsig
    · by_cases ha : h.alive = true
      · exact ⟨h, hp ▸ rfl, ha⟩
      · simp [stop_process, hp, ha] at hsig
  · intro g hp
    simp [stop_process, hp]
  · intro g h hp ha
    simp [stop_process, hp, ha]
  · intro g
    rcases hcase g with hg | hg <;> rw [hg]
    · show stop_process { g with g_process := none } = _
      unfold stop_process
      rfl
    · show stop_process g = (g, false, [])
      rcases hcase g with hg2 | hg2
      · rw [hg2] at hg
        exact absurd (congrArg (fun t => t.2.1) hg) (by simp)
      · exact hg2
  · intro g
    rcases hcase g with hg | hg <;> rw [hg]

theorem stop_process_safe_witness :
    stop_process ⟨none, ⟨false, 0, 0, 9⟩, false⟩ = (⟨none, ⟨false, 0, 0, 9⟩, false⟩, false, []) :=
  stop_process_safe.2.1 ⟨none, ⟨false, 0, 0, 9⟩, false⟩ rfl

/-- C10: the commit interval is strictly positive wherever the counter update
`(iterationCount + 1) % commitInterval` can run: the start-time computation
always yields at least 1, the freshly started session has a positive
interval, and feeding any sequence of lines preserves positivity. -/
theorem commit_interval_positive :
    (∀ L S : Int, 1 ≤ compute_commit_interval L S) ∧
    0 < start_session.commitInterval ∧
    (∀ (st : SyncState) (inputs : List (String × Rat)),
      0 < st.commitInterval → 0 < (feedMany st inputs).1.commitInterval) := by
  refine ⟨?_, by decide, ?_⟩
  · intro L S
    unfold compute_commit_interval
    split
    · exact le_max_left 1 _
    · decide
  · intro st inputs
    induction inputs generalizing st with
    | nil => intro h; exact h
    | cons hd tl ih =>
      intro h
      obtain ⟨l, p⟩ := hd
      show 0 < (feedMany (feed st l p).1 tl).1.commitInterval
      exact ih (feed st l p).1 (by rw [feed_commitInterval_eq]; exact h)

theorem commit_interval_positive_witness :
    0 < (feedMany start_session [("x", 1)]).1.commitInterval :=
  commit_interval_positive.2.2 start_session [("x", 1)] (by decide)

end WhisperMarkers
